import Mathlib

/-!
Verification of the network-test enclave application: the attestation
verification flow (freshness nonce, measurement comparison, document
verification, HTTP handler outcomes) and the frame-tunnel framing protocol
(wire envelopes, read-full transmit loop, reconnecting supervisor).

Bytes are modelled as `Nat` (Go `byte` values, always < 256 in practice;
none of the verified properties depend on the bound). Byte slices are
`List Nat`.
-/

/-- A Go byte, modelled as a natural number. -/
abbrev Byte := Nat

/-- The nonce hardcoded in AutoAttestationHandler (src/main.go line 227 and
src/cmd/main.go line 186): the Go expression
  hardcodedNonce := a byte slice of the ASCII digits 123123231231213213213213241421121
modelled as the list of code points of that digit string. -/
def hardcodedNonce : List Byte :=
  "123123231231213213213213241421121".toList.map Char.toNat

/-- The freshness check of AutoAttestationHandler (src/main.go line 272):
the Go comparison string(res.Document.Nonce) == string(hardcodedNonce).
Converting a byte slice to a Go string and comparing with == compares the
byte sequences for equality. -/
def checkFreshness (docNonce expected : List Byte) : Bool :=
  docNonce == expected

/-- A Measurement Set: the Go type map from uint PCR index to byte-slice
digest (map with uint keys and byte-slice values), modelled as an
association list from PCR index to digest bytes. -/
abbrev MeasurementSet := List (Nat × List Byte)

/-- Lookup of a PCR index in a measurement set. -/
def msLookup (m : MeasurementSet) (k : Nat) : Option (List Byte) :=
  List.lookup k m

/-- The PCR indices present in a measurement set. -/
def msKeys (m : MeasurementSet) : List Nat :=
  m.map Prod.fst

/-- Modelled from the spec: ArePCRsIdentical lives in pkg/attestation,
which is not under src/ (src/main.go line 276 and src/cmd/main.go line 235
only call it). Spec 4.2: true iff the two sets contain the same set of PCR
indices and, for every shared index, byte-identical digests; an index
present in one set but absent from the other makes the sets unequal. -/
def compareMeasurements (a b : MeasurementSet) : Bool :=
  (msKeys a).all (fun k => decide (k ∈ msKeys b)) &&
  (msKeys b).all (fun k => decide (k ∈ msKeys a)) &&
  (msKeys a).all (fun k => msLookup a k == msLookup b k)

theorem compareMeasurements_true_iff (a b : MeasurementSet) :
    compareMeasurements a b = true ↔
      (∀ k, k ∈ msKeys a ↔ k ∈ msKeys b) ∧
      (∀ k, k ∈ msKeys a → msLookup a k = msLookup b k) := by
  unfold compareMeasurements
  simp only [Bool.and_eq_true, List.all_eq_true, decide_eq_true_eq, beq_iff_eq]
  constructor
  · rintro ⟨⟨hab, hba⟩, hval⟩
    exact ⟨fun k => ⟨fun h => hab k h, fun h => hba k h⟩, hval⟩
  · rintro ⟨hiff, hval⟩
    exact ⟨⟨fun k h => (hiff k).mp h, fun k h => (hiff k).mpr h⟩, hval⟩

theorem compareMeasurements_prop_comm (a b : MeasurementSet)
    (h : (∀ k, k ∈ msKeys a ↔ k ∈ msKeys b) ∧
         (∀ k, k ∈ msKeys a → msLookup a k = msLookup b k)) :
    (∀ k, k ∈ msKeys b ↔ k ∈ msKeys a) ∧
      (∀ k, k ∈ msKeys b → msLookup b k = msLookup a k) := by
  obtain ⟨hk, hv⟩ := h
  exact ⟨fun k => (hk k).symm, fun k hkb => (hv k ((hk k).mpr hkb)).symm⟩

/-- Claim C1: the freshness check of AutoAttestationHandler is true iff the
document nonce and the expected nonce have equal length and an equal byte at
every index; any difference in length, or in even a single byte, makes it
false. -/
theorem checkFreshness_bytewise (d n : List Byte) :
    (checkFreshness d n = true ↔
      d.length = n.length ∧ ∀ i, i < d.length → d.getD i 0 = n.getD i 0)
    ∧ (d.length ≠ n.length → checkFreshness d n = false)
    ∧ (∀ i, i < d.length → d.getD i 0 ≠ n.getD i 0 → checkFreshness d n = false) := by
  have hiff : checkFreshness d n = true ↔
      d.length = n.length ∧ ∀ i, i < d.length → d.getD i 0 = n.getD i 0 := by
    unfold checkFreshness
    rw [beq_iff_eq]
    constructor
    · rintro rfl
      exact ⟨rfl, fun i _ => rfl⟩
    · rintro ⟨hlen, hpt⟩
      refine List.ext_getElem hlen (fun i h1 h2 => ?_)
      have := hpt i h1
      rwa [List.getD_eq_getElem d 0 h1, List.getD_eq_getElem n 0 h2] at this
  refine ⟨hiff, fun hne => ?_, fun i hi hne => ?_⟩
  · cases hc : checkFreshness d n with
    | false => rfl
    | true => exact absurd (hiff.mp hc).1 hne
  · cases hc : checkFreshness d n with
    | false => rfl
    | true => exact absurd ((hiff.mp hc).2 i hi) hne

theorem checkFreshness_bytewise_witness :
    checkFreshness [49, 50] [49, 51] = false :=
  (checkFreshness_bytewise [49, 50] [49, 51]).2.2 1 (by decide) (by decide)

/-- Claim C2: compareMeasurements is true iff the two measurement sets have
the same set of PCR indices and byte-identical digests at every shared index;
an index present in one set but absent from the other makes it false; it is
symmetric and reflexive. -/
theorem compareMeasurements_spec :
    (∀ a b : MeasurementSet,
        compareMeasurements a b = true ↔
          (∀ k, k ∈ msKeys a ↔ k ∈ msKeys b) ∧
          (∀ k, k ∈ msKeys a → msLookup a k = msLookup b k))
    ∧ (∀ (a b : MeasurementSet) (k : Nat),
        k ∈ msKeys a → k ∉ msKeys b → compareMeasurements a b = false)
    ∧ (∀ a b : MeasurementSet, compareMeasurements a b = compareMeasurements b a)
    ∧ (∀ a : MeasurementSet, compareMeasurements a a = true) := by
  refine ⟨compareMeasurements_true_iff, ?_, ?_, ?_⟩
  · intro a b k hka hkb
    cases hc : compareMeasurements a b with
    | false => rfl
    | true =>
      exact absurd (((compareMeasurements_true_iff a b).mp hc).1 k |>.mp hka) hkb
  · intro a b
    cases h1 : compareMeasurements a b with
    | false =>
      cases h2 : compareMeasurements b a with
      | false => rfl
      | true =>
        have := (compareMeasurements_true_iff a b).mpr
          (compareMeasurements_prop_comm b a ((compareMeasurements_true_iff b a).mp h2))
        rw [h1] at this
        exact absurd this (by decide)
    | true =>
      have := (compareMeasurements_true_iff b a).mpr
        (compareMeasurements_prop_comm a b ((compareMeasurements_true_iff a b).mp h1))
      exact this.symm
  · intro a
    exact (compareMeasurements_true_iff a a).mpr ⟨fun k => Iff.rfl, fun k _ => rfl⟩

theorem compareMeasurements_spec_witness :
    compareMeasurements [(0, [1])] [] = false ∧
      compareMeasurements [(0, [1])] [(0, [1])] = true :=
  ⟨compareMeasurements_spec.2.1 [(0, [1])] [] 0 (by decide) (by decide),
   compareMeasurements_spec.2.2.2 [(0, [1])]⟩

/-- The errors of the document-verification primitive (spec section 7). -/
inductive VerifyError where
  | InvalidSignature
  | ExpiredCertificate
  | MalformedDocument
deriving DecidableEq, Repr

/-- A decoded attestation document (spec section 3): nonce, Measurement Set,
digest algorithm identifier, signer public key and module identifier. -/
structure Document where
  nonce : List Byte
  pcrs : MeasurementSet
  digest : List Byte
  publicKey : List Byte
  moduleID : List Byte
deriving DecidableEq, Repr

/-- A raw (signed, CBOR/COSE encoded) attestation document, abstracted to
the facts the verification primitive inspects: whether it parses, its
certificate-chain validity window, whether its signature chain is valid,
and the payload it decodes to. -/
structure RawDocument where
  wellFormed : Bool
  notBefore : Nat
  notAfter : Nat
  signatureValid : Bool
  payload : Document
deriving DecidableEq, Repr

/-- Modelled from the spec: the document-verification primitive is the
external library function nitrite.Verify, consumed at its interface boundary
(spec section 6(e)); its body is not part of this repository. Spec 4.2:
validates the signature chain and certificate validity window against
currentTime; fails with InvalidSignature, ExpiredCertificate or
MalformedDocument as appropriate; an elapsed validity window yields
ExpiredCertificate, not InvalidSignature; on success returns the decoded
fields. -/
def Verify (raw : RawDocument) (currentTime : Nat) : Except VerifyError Document :=
  if raw.wellFormed = false then
    .error .MalformedDocument
  else if raw.notAfter < currentTime ∨ currentTime < raw.notBefore then
    .error .ExpiredCertificate
  else if raw.signatureValid = false then
    .error .InvalidSignature
  else
    .ok raw.payload

/-- From src/main.go verifyAttestation (lines 314-342): calls nitrite.Verify
with the current time, returns the error unchanged on failure, and the
document PCR map on success. -/
def verifyAttestation (att : RawDocument) (now : Nat) : Except VerifyError MeasurementSet :=
  match Verify att now with
  | .error e => .error e
  | .ok doc => .ok doc.pcrs

/-- Claim C4: Verify checks well-formedness, the certificate validity window
against the supplied time, and the signature chain, failing with the matching
error; an elapsed validity window yields ExpiredCertificate regardless of the
signature (not InvalidSignature); success returns the decoded payload; and
the verifyAttestation call site propagates exactly these results. -/
theorem Verify_spec :
    (∀ (raw : RawDocument) (t : Nat), raw.wellFormed = false →
        Verify raw t = .error .MalformedDocument)
    ∧ (∀ (raw : RawDocument) (t : Nat), raw.wellFormed = true →
        raw.notAfter < t → Verify raw t = .error .ExpiredCertificate)
    ∧ (∀ (raw : RawDocument) (t : Nat), raw.wellFormed = true →
        raw.notBefore ≤ t → t ≤ raw.notAfter → raw.signatureValid = false →
        Verify raw t = .error .InvalidSignature)
    ∧ (∀ (raw : RawDocument) (t : Nat), raw.wellFormed = true →
        raw.notBefore ≤ t → t ≤ raw.notAfter → raw.signatureValid = true →
        Verify raw t = .ok raw.payload)
    ∧ (∀ (raw : RawDocument) (t : Nat) (e : VerifyError),
        Verify raw t = .error e → verifyAttestation raw t = .error e)
    ∧ (∀ (raw : RawDocument) (t : Nat) (doc : Document),
        Verify raw t = .ok doc → verifyAttestation raw t = .ok doc.pcrs) := by
  refine ⟨?_, ?_, ?_, ?_, ?_, ?_⟩
  · intro raw t hwf
    simp [Verify, hwf]
  · intro raw t hwf hexp
    simp [Verify, hwf, hexp]
  · intro raw t hwf hnb hna hsig
    have h1 : ¬(raw.notAfter < t ∨ t < raw.notBefore) := by omega
    simp [Verify, hwf, h1, hsig]
  · intro raw t hwf hnb hna hsig
    have h1 : ¬(raw.notAfter < t ∨ t < raw.notBefore) := by omega
    simp [Verify, hwf, h1, hsig]
  · intro raw t e hv
    simp [verifyAttestation, hv]
  · intro raw t doc hv
    simp [verifyAttestation, hv]

theorem Verify_spec_witness :
    Verify ⟨true, 0, 10, false, ⟨[], [], [], [], []⟩⟩ 20
        = .error .ExpiredCertificate
    ∧ verifyAttestation ⟨true, 0, 10, true, ⟨[7], [(0, [1])], [], [], []⟩⟩ 5
        = .ok [(0, [1])] :=
  ⟨Verify_spec.2.1 ⟨true, 0, 10, false, ⟨[], [], [], [], []⟩⟩ 20 rfl (by decide),
   Verify_spec.2.2.2.2.2 ⟨true, 0, 10, true, ⟨[7], [(0, [1])], [], [], []⟩⟩ 5
     ⟨[7], [(0, [1])], [], [], []⟩
     (Verify_spec.2.2.2.1 ⟨true, 0, 10, true, ⟨[7], [(0, [1])], [], [], []⟩⟩ 5
       rfl (by decide) (by decide) rfl)⟩

/-- The stage at which AutoAttestationHandler calls log.Fatalf, terminating
the whole process (src/main.go lines 253, 262, 267). -/
inductive FatalStage where
  | localVerify
  | attestRequest
  | remoteVerify
deriving DecidableEq, Repr

/-- The outcome of one AutoAttestationHandler invocation as the caller can
observe it: either the process dies at some fatal stage (no HTTP response at
all), or an HTTP response with a status code and body is written. -/
inductive HandlerResult where
  | fatal (stage : FatalStage)
  | response (status : Nat) (body : List Byte)
deriving DecidableEq, Repr

/-- An inbound HTTP request, opaque to the handler (the Go closure never
reads r). -/
abbrev Request := List Byte

/-- From src/main.go AutoAttestationHandler (lines 223-312). Inputs model
the environment of one invocation: the raw document returned by the edgebit
enclaveHandle.Attest call (errors there are only logged and the handler
proceeds), the nitriding attest primitive as a function of the nonce it is
given, and the current time. Control flow: verifyAttestation of the local
document (log.Fatalf on error), attest with hardcodedNonce (log.Fatalf on
error), nitrite.Verify of the result (log.Fatalf on error), then the nonce
comparison and arePCRsIdentical results are only logged, and the handler
writes status 200 with an empty body. -/
def autoAttestationHandler (_r : Request) (localRaw : RawDocument)
    (attestFn : List Byte → Except Unit RawDocument) (now : Nat) : HandlerResult :=
  match verifyAttestation localRaw now with
  | .error _ => .fatal .localVerify
  | .ok myPCRs =>
    match attestFn hardcodedNonce with
    | .error _ => .fatal .attestRequest
    | .ok remoteRaw =>
      match Verify remoteRaw now with
      | .error _ => .fatal .remoteVerify
      | .ok doc =>
        let _nonceMatches := checkFreshness doc.nonce hardcodedNonce
        let _pcrsMatch := compareMeasurements myPCRs doc.pcrs
        .response 200 []

/-- A local document whose PCR 0 digest is the byte 1. -/
def exLocalRaw : RawDocument := ⟨true, 0, 100, true, ⟨[0], [(0, [1])], [], [], []⟩⟩

/-- A remote document with the expected nonce but a mismatching PCR 0. -/
def exRawFreshButDifferent : RawDocument :=
  ⟨true, 0, 100, true, ⟨hardcodedNonce, [(0, [2])], [], [], []⟩⟩

/-- A remote document with a wrong nonce but matching PCRs. -/
def exRawStaleButIdentical : RawDocument :=
  ⟨true, 0, 100, true, ⟨[0], [(0, [1])], [], [], []⟩⟩

/-- Claim C3 counterexample: a run whose only failure is a measurement
mismatch and a run whose only failure is a nonce mismatch produce exactly
the same observable handler outcome (status 200, empty body), so the two
failure kinds are collapsed and are not independently observable by the
caller. -/
theorem autoAttestation_collapse_counterexample :
    checkFreshness exRawFreshButDifferent.payload.nonce hardcodedNonce = true
    ∧ compareMeasurements exLocalRaw.payload.pcrs exRawFreshButDifferent.payload.pcrs = false
    ∧ checkFreshness exRawStaleButIdentical.payload.nonce hardcodedNonce = false
    ∧ compareMeasurements exLocalRaw.payload.pcrs exRawStaleButIdentical.payload.pcrs = true
    ∧ autoAttestationHandler [] exLocalRaw (fun _ => .ok exRawFreshButDifferent) 10
      = autoAttestationHandler [] exLocalRaw (fun _ => .ok exRawStaleButIdentical) 10 := by
  decide

/-- Claim C3 (amended): the three verification failures abort the process at
distinct fatal stages via log.Fatalf (so "cannot attest" never produces an
HTTP response), while nonce mismatch and measurement mismatch are not
reported at all: whenever both documents verify, the handler responds 200
with an empty body regardless of the freshness and measurement outcomes. -/
theorem autoAttestation_outcomes :
    (∀ (r : Request) (lRaw : RawDocument) (f : List Byte → Except Unit RawDocument)
        (now : Nat) (e : VerifyError), verifyAttestation lRaw now = .error e →
        autoAttestationHandler r lRaw f now = .fatal .localVerify)
    ∧ (∀ (r : Request) (lRaw : RawDocument) (f : List Byte → Except Unit RawDocument)
        (now : Nat) (ps : MeasurementSet), verifyAttestation lRaw now = .ok ps →
        f hardcodedNonce = .error () →
        autoAttestationHandler r lRaw f now = .fatal .attestRequest)
    ∧ (∀ (r : Request) (lRaw rRaw : RawDocument) (f : List Byte → Except Unit RawDocument)
        (now : Nat) (ps : MeasurementSet) (e : VerifyError),
        verifyAttestation lRaw now = .ok ps → f hardcodedNonce = .ok rRaw →
        Verify rRaw now = .error e →
        autoAttestationHandler r lRaw f now = .fatal .remoteVerify)
    ∧ (∀ (r : Request) (lRaw rRaw : RawDocument) (f : List Byte → Except Unit RawDocument)
        (now : Nat) (ps : MeasurementSet) (doc : Document),
        verifyAttestation lRaw now = .ok ps → f hardcodedNonce = .ok rRaw →
        Verify rRaw now = .ok doc →
        autoAttestationHandler r lRaw f now = .response 200 []) := by
  refine ⟨?_, ?_, ?_, ?_⟩
  · intro r lRaw f now e hl
    simp [autoAttestationHandler, hl]
  · intro r lRaw f now ps hl hf
    simp [autoAttestationHandler, hl, hf]
  · intro r lRaw rRaw f now ps e hl hf hv
    simp [autoAttestationHandler, hl, hf, hv]
  · intro r lRaw rRaw f now ps doc hl hf hv
    simp [autoAttestationHandler, hl, hf, hv]

theorem autoAttestation_outcomes_witness :
    autoAttestationHandler [] exLocalRaw (fun _ => .ok exRawStaleButIdentical) 10
      = .response 200 [] :=
  autoAttestation_outcomes.2.2.2 [] exLocalRaw exRawStaleButIdentical
    (fun _ => .ok exRawStaleButIdentical) 10 [(0, [1])]
    exRawStaleButIdentical.payload rfl rfl rfl

/-- Claim C8: the nonce used by AutoAttestationHandler is the fixed 33-byte
ASCII constant 123123231231213213213213241421121, identical on every
invocation: the handler result does not depend on the inbound request, and
it depends on the attest primitive only through its value at that one
constant nonce, so every attestation request is bound to the same nonce and
the freshness check compares against the same constant. -/
theorem hardcodedNonce_deterministic :
    hardcodedNonce.length = 33
    ∧ hardcodedNonce = [49, 50, 51, 49, 50, 51, 50, 51, 49, 50, 51, 49, 50,
        49, 51, 50, 49, 51, 50, 49, 51, 50, 49, 51, 50, 52, 49, 52, 50, 49,
        49, 50, 49]
    ∧ (∀ (r1 r2 : Request) (lRaw : RawDocument)
        (f : List Byte → Except Unit RawDocument) (now : Nat),
        autoAttestationHandler r1 lRaw f now = autoAttestationHandler r2 lRaw f now)
    ∧ (∀ (r : Request) (lRaw : RawDocument)
        (f g : List Byte → Except Unit RawDocument) (now : Nat),
        f hardcodedNonce = g hardcodedNonce →
        autoAttestationHandler r lRaw f now = autoAttestationHandler r lRaw g now) := by
  refine ⟨by decide, by decide, fun r1 r2 lRaw f now => rfl, ?_⟩
  intro r lRaw f g now hfg
  unfold autoAttestationHandler
  rw [hfg]

theorem hardcodedNonce_deterministic_witness :
    autoAttestationHandler [7] exLocalRaw (fun _ => .ok exRawStaleButIdentical) 10
      = autoAttestationHandler [7] exLocalRaw
          (fun n => if n = hardcodedNonce then .ok exRawStaleButIdentical else .error ()) 10 :=
  hardcodedNonce_deterministic.2.2.2 [7] exLocalRaw
    (fun _ => .ok exRawStaleButIdentical)
    (fun n => if n = hardcodedNonce then .ok exRawStaleButIdentical else .error ()) 10
    (by simp)

/-- The distinct error exits of Enclave.Start (src/main.go lines 160-186). -/
inductive StartError where
  | loIface
  | certificate
  | webServers
deriving DecidableEq, Repr

/-- From src/main.go startWebServers (lines 190-199): logs, spawns the
public-server goroutine, and unconditionally returns nil. -/
def startWebServers : Except StartError Unit := .ok ()

/-- From src/main.go Enclave.Start (lines 160-186). The single local
variable err is assigned the setFdLimit result (only logged), then
overwritten by the configureLoIface result (returned on failure); the
runNetworking goroutine start and the 3-second sleep do not assign err, so
the later `if err != nil` certificate branch re-tests the configureLoIface
result; finally startWebServers runs and its result is returned. -/
def enclaveStart (fdErr : Option Unit) (loErr : Option Unit) : Except StartError Unit :=
  let _err := fdErr
  let err := loErr
  match err with
  | some _ => .error .loIface
  | none =>
    match err with
    | some _ => .error .certificate
    | none =>
      match startWebServers with
      | .error _ => .error .webServers
      | .ok _ => .ok ()

/-- Claim C9: the certificate-error branch of Enclave.Start is unreachable
(err is nil whenever it is tested), and since startWebServers always
returns nil, Start returns nil whenever configureLoIface succeeds. -/
theorem enclaveStart_certificate_unreachable :
    (∀ fdErr loErr : Option Unit, enclaveStart fdErr loErr ≠ .error .certificate)
    ∧ (∀ fdErr : Option Unit, enclaveStart fdErr none = .ok ())
    ∧ startWebServers = .ok () := by
  refine ⟨?_, ?_, rfl⟩
  · intro fdErr loErr
    cases loErr <;> simp [enclaveStart, startWebServers]
  · intro fdErr
    rfl

theorem enclaveStart_certificate_unreachable_witness :
    enclaveStart (some ()) none = .ok ()
    ∧ ¬enclaveStart (some ()) (some ()) = .error .certificate :=
  ⟨enclaveStart_certificate_unreachable.2.1 (some ()),
   enclaveStart_certificate_unreachable.1 (some ()) (some ())⟩

/-- The outcome of one /hello-world invocation as observable from outside:
either the whole process dies via log.Fatalln (no response), or an HTTP
response is written. -/
inductive HelloOutcome where
  | fatalExit
  | response (status : Nat) (body : String)
deriving DecidableEq, Repr

/-- From src/main.go helloWorld (lines 201-221). Inputs model the outbound
http.Get result (error or a response whose body is a byte stream) and the
io.ReadAll result on that body. Either failure calls log.Fatalln,
terminating the process; otherwise the body is only logged and the handler
writes status 200 with body Hello World. -/
def helloWorld (getRes : Except Unit (List Byte))
    (readRes : List Byte → Except Unit (List Byte)) : HelloOutcome :=
  match getRes with
  | .error _ => .fatalExit
  | .ok respBody =>
    match readRes respBody with
    | .error _ => .fatalExit
    | .ok _sb => .response 200 "Hello World!"

/-- Claim C10: a failed outbound GET or a failed body read terminates the
entire process rather than producing an HTTP error response; on every other
path the handler responds 200 with body Hello World. -/
theorem helloWorld_outcomes :
    (∀ readRes : List Byte → Except Unit (List Byte),
        helloWorld (.error ()) readRes = .fatalExit)
    ∧ (∀ (b : List Byte) (readRes : List Byte → Except Unit (List Byte)),
        readRes b = .error () → helloWorld (.ok b) readRes = .fatalExit)
    ∧ (∀ (b body : List Byte) (readRes : List Byte → Except Unit (List Byte)),
        readRes b = .ok body →
        helloWorld (.ok b) readRes = .response 200 "Hello World!") := by
  refine ⟨fun readRes => rfl, ?_, ?_⟩
  · intro b readRes hr
    simp [helloWorld, hr]
  · intro b body readRes hr
    simp [helloWorld, hr]

theorem helloWorld_outcomes_witness :
    helloWorld (.ok [1]) (fun _ => .error ()) = .fatalExit
    ∧ helloWorld (.ok [1]) (fun b => .ok b) = .response 200 "Hello World!" :=
  ⟨helloWorld_outcomes.2.1 [1] (fun _ => .error ()) rfl,
   helloWorld_outcomes.2.2 [1] [1] (fun b => .ok b) rfl⟩

/-- The negotiated default MTU of the tunnel (spec section 3): 4000 bytes of
frame payload. -/
def MTU : Nat := 4000

/-- Modelled from the spec: the framing code lives in pkg/system, which is
not under src/. Wire Envelope (spec section 3): a fixed 2-byte little-endian
unsigned length then exactly that many payload bytes. -/
def encodeFrame (f : List Byte) : List Byte :=
  (f.length % 256) :: (f.length / 256 % 256) :: f

/-- Modelled from the spec: decoding one Wire Envelope from a byte stream;
reads the 2-byte little-endian length, then exactly that many payload bytes,
returning the frame and the remaining stream, or nothing when the stream is
too short. -/
def decodeFrame (w : List Byte) : Option (List Byte × List Byte) :=
  match w with
  | b0 :: b1 :: rest =>
      if b0 + 256 * b1 ≤ rest.length then
        some (rest.take (b0 + 256 * b1), rest.drop (b0 + 256 * b1))
      else none
  | _ => none

/-- Modelled from the spec: the receive-direction loop (spec 4.1.2) writes
one envelope per frame to the connection, in the order the frames were read
from the device, with no reordering or batching. -/
def receiveLoopOutput (frames : List (List Byte)) : List Byte :=
  (frames.map encodeFrame).flatten

/-- Claim C5: encoding a frame of length at most MTU and decoding the result
yields the frame unchanged (with any following bytes untouched); the encoded
length value equals the frame length and lies in 0..65535; and the frames
AA and BBBB encode, in order, to the wire bytes 2 0 65 65 4 0 66 66 66 66. -/
theorem wireEnvelope_roundtrip :
    (∀ f extra : List Byte, f.length ≤ MTU →
        decodeFrame (encodeFrame f ++ extra) = some (f, extra))
    ∧ (∀ f : List Byte, f.length ≤ MTU →
        f.length % 256 + 256 * (f.length / 256 % 256) = f.length ∧ f.length ≤ 65535)
    ∧ receiveLoopOutput [[65, 65], [66, 66, 66, 66]]
        = [2, 0, 65, 65, 4, 0, 66, 66, 66, 66] := by
  have hval : ∀ f : List Byte, f.length ≤ MTU →
      f.length % 256 + 256 * (f.length / 256 % 256) = f.length ∧ f.length ≤ 65535 := by
    intro f hf
    unfold MTU at hf
    have hdiv : f.length / 256 < 256 := by omega
    exact ⟨by rw [Nat.mod_eq_of_lt hdiv, Nat.mod_add_div], by omega⟩
  refine ⟨?_, hval, by decide⟩
  intro f extra hf
  have hn := (hval f hf).1
  simp only [encodeFrame, List.cons_append, decodeFrame, hn]
  rw [if_pos (by simp [List.length_append])]
  rw [List.take_left, List.drop_left]

theorem wireEnvelope_roundtrip_witness :
    decodeFrame (encodeFrame [65, 65] ++ [9]) = some ([65, 65], [9]) :=
  wireEnvelope_roundtrip.1 [65, 65] [9] (by decide)

/-- Modelled from the spec: read-full of n bytes from a stream (spec 4.1.3):
succeeds with exactly n bytes and the remaining stream, or fails when the
stream ends first (a short read is an error, not a partial frame). -/
def readFull (n : Nat) (s : List Byte) : Option (List Byte × List Byte) :=
  if n ≤ s.length then some (s.take n, s.drop n) else none

/-- The outcome of one transmit-loop iteration: a full frame written to the
virtual interface, or an error reported on the shared error channel. -/
inductive TransmitResult where
  | wroteFrame (frame rest : List Byte)
  | ioError
deriving DecidableEq, Repr

/-- Modelled from the spec: one iteration of the transmit-direction loop
(spec 4.1.3), which lives in pkg/system, not under src/: read exactly 2
length bytes, decode little-endian, read exactly that many payload bytes,
both with read-full semantics, and only then write the frame. -/
def transmitStep (s : List Byte) : TransmitResult :=
  match readFull 2 s with
  | none => .ioError
  | some (hdr, rest) =>
      match readFull (hdr.getD 0 0 + 256 * hdr.getD 1 0) rest with
      | none => .ioError
      | some (frame, rest2) => .wroteFrame frame rest2

theorem readFull_eq_none (n : Nat) (s : List Byte) (h : s.length < n) :
    readFull n s = none := by
  unfold readFull
  rw [if_neg (by omega)]

theorem readFull_eq_some (n : Nat) (s : List Byte) (h : n ≤ s.length) :
    readFull n s = some (s.take n, s.drop n) := by
  unfold readFull
  rw [if_pos h]

/-- Claim C6: the transmit loop reads exactly 2 length bytes and then
exactly N payload bytes with read-full semantics; a stream that ends before
delivering the 2 length bytes, or before delivering all N payload bytes, is
an error and no short frame is ever written; every frame written has exactly
N bytes, the first N bytes after the length. -/
theorem transmitStep_readFull :
    (∀ s : List Byte, s.length < 2 → transmitStep s = .ioError)
    ∧ (∀ (b0 b1 : Byte) (rest : List Byte), rest.length < b0 + 256 * b1 →
        transmitStep (b0 :: b1 :: rest) = .ioError)
    ∧ (∀ (b0 b1 : Byte) (rest : List Byte), b0 + 256 * b1 ≤ rest.length →
        transmitStep (b0 :: b1 :: rest)
          = .wroteFrame (rest.take (b0 + 256 * b1)) (rest.drop (b0 + 256 * b1)))
    ∧ (∀ (b0 b1 : Byte) (rest frame rest2 : List Byte),
        transmitStep (b0 :: b1 :: rest) = .wroteFrame frame rest2 →
        frame.length = b0 + 256 * b1 ∧ frame = rest.take (b0 + 256 * b1)) := by
  have hhdr : ∀ (b0 b1 : Byte) (rest : List Byte),
      readFull 2 (b0 :: b1 :: rest) = some ([b0, b1], rest) := by
    intro b0 b1 rest
    rw [readFull_eq_some 2 _ (by simp)]
    rfl
  have hfull : ∀ (b0 b1 : Byte) (rest : List Byte), b0 + 256 * b1 ≤ rest.length →
      transmitStep (b0 :: b1 :: rest)
        = .wroteFrame (rest.take (b0 + 256 * b1)) (rest.drop (b0 + 256 * b1)) := by
    intro b0 b1 rest h
    simp [transmitStep, hhdr, readFull_eq_some _ rest h]
  refine ⟨?_, ?_, hfull, ?_⟩
  · intro s hs
    simp [transmitStep, readFull_eq_none 2 s hs]
  · intro b0 b1 rest h
    simp [transmitStep, hhdr, readFull_eq_none _ rest h]
  · intro b0 b1 rest frame rest2 h
    rcases le_or_lt (b0 + 256 * b1) rest.length with hle | hlt
    · rw [hfull b0 b1 rest hle] at h
      have hframe : frame = rest.take (b0 + 256 * b1) := by
        cases h
        rfl
      refine ⟨?_, hframe⟩
      rw [hframe, List.length_take]
      exact inf_eq_left.mpr hle
    · rw [(by simp [transmitStep, hhdr, readFull_eq_none _ rest hlt] :
          transmitStep (b0 :: b1 :: rest) = .ioError)] at h
      cases h

theorem transmitStep_readFull_witness :
    transmitStep [4, 0, 66, 66] = .ioError :=
  transmitStep_readFull.2.1 4 0 [66, 66] (by decide)

/-- What one EstablishAndForward attempt can come to (spec 4.1.1): the
connection is refused before forwarding starts, forwarding starts and later
fails, or the stop signal is observed during a healthy attempt. -/
inductive AttemptResult where
  | refused
  | forwardFailed
  | stopObserved
deriving DecidableEq, Repr

/-- Observable events of the tunnel supervisor: a forwarding task starting,
and a backoff wait of the given number of seconds. There is no
process-termination event: the supervisor has no way to kill the process. -/
inductive TunnelEvent where
  | forwardingStarted
  | backoffWait (secs : Nat)
deriving DecidableEq, Repr

/-- Modelled from the spec: RunNetworking lives in pkg/system, not under
src/ (src/main.go line 172 only spawns it). Spec 4.1: loop indefinitely;
each iteration is one EstablishAndForward attempt; on any failure wait a
fixed 1-second backoff and retry with no maximum retry count; only the stop
signal makes it return, normally and with no backoff. The attempt outcomes
are supplied as a function of the attempt index; fuel bounds how many
iterations are inspected (the Go loop itself has no bound). Returns the
event trace and whether the supervisor returned within the inspected
iterations. -/
def runNetworking (results : Nat → AttemptResult) : Nat → Nat → List TunnelEvent × Bool
  | _, 0 => ([], false)
  | i, fuel + 1 =>
    match results i with
    | .refused =>
        (TunnelEvent.backoffWait 1 :: (runNetworking results (i + 1) fuel).1,
         (runNetworking results (i + 1) fuel).2)
    | .forwardFailed =>
        (TunnelEvent.forwardingStarted :: TunnelEvent.backoffWait 1 ::
            (runNetworking results (i + 1) fuel).1,
         (runNetworking results (i + 1) fuel).2)
    | .stopObserved => ([TunnelEvent.forwardingStarted], true)

/-- Claim C7: against an endpoint that refuses connections, three attempts
produce exactly three 1-second backoff waits, no forwarding task ever starts
and the supervisor has not returned; for any attempt outcomes, the
supervisor never returns unless some attempt observes the stop signal (it
retries forever, never terminating on error); and an attempt that observes
the stop signal makes it return at once, with no backoff. -/
theorem runNetworking_supervisor :
    (runNetworking (fun _ => .refused) 0 3
        = ([.backoffWait 1, .backoffWait 1, .backoffWait 1], false))
    ∧ (∀ (results : Nat → AttemptResult) (i fuel : Nat),
        (∀ j, results j ≠ .stopObserved) →
        (runNetworking results i fuel).2 = false)
    ∧ (∀ (results : Nat → AttemptResult) (i fuel : Nat),
        (runNetworking results i fuel).2 = true → ∃ j, results j = .stopObserved)
    ∧ (∀ (results : Nat → AttemptResult) (i fuel : Nat),
        results i = .stopObserved →
        runNetworking results i (fuel + 1) = ([.forwardingStarted], true)) := by
  have hnostop : ∀ (results : Nat → AttemptResult) (fuel i : Nat),
      (∀ j, results j ≠ .stopObserved) →
      (runNetworking results i fuel).2 = false := by
    intro results fuel
    induction fuel with
    | zero => intro i _; rfl
    | succ n ih =>
      intro i hns
      cases hr : results i with
      | refused => simp [runNetworking, hr, ih (i + 1) hns]
      | forwardFailed => simp [runNetworking, hr, ih (i + 1) hns]
      | stopObserved => exact absurd hr (hns i)
  refine ⟨rfl, fun results i fuel hns => hnostop results fuel i hns, ?_, ?_⟩
  · intro results i fuel htrue
    by_contra hno
    push_neg at hno
    rw [hnostop results fuel i hno] at htrue
    cases htrue
  · intro results i fuel hstop
    simp [runNetworking, hstop]

theorem runNetworking_supervisor_witness :
    runNetworking (fun _ => .stopObserved) 0 1 = ([.forwardingStarted], true) :=
  runNetworking_supervisor.2.2.2 (fun _ => .stopObserved) 0 0 rfl
